import Mathlib

/-!
Verification development for the lexical front end (`src/parser/parsing.go`)
and the tree renderer (`src/unnamed/part_000`) of piex/govaluate-tool.

The tokenizer operates on the source text as a sequence of runes; we model
runes as `Char` and the stream as a list of characters plus a cursor.
Go's `unicode` predicates are modelled on the ASCII range, which covers every
character class the tokenizer distinguishes and all inputs examined here.
The `time`-format parsing used to classify quoted literals is abstracted as a
parameter (`tpt`), since no property below concerns TIME tokens.
-/

namespace GovaluateTool

/-- Token kinds, exactly the enumeration the tokenizer and renderer share. -/
inductive TokenKind where
  | UNKNOWN
  | NUMERIC
  | STRING
  | TIME
  | BOOLEAN
  | VARIABLE
  | ACCESSOR
  | FUNCTION
  | SEPARATOR
  | COMPARATOR
  | LOGICALOP
  | PREFIX
  | MODIFIER
  | TERNARY
  | CLAUSE
  | CLAUSE_CLOSE
  | ARRAY
deriving DecidableEq, Repr

/-- A callable function descriptor (`ExpressionFunction` in the source). -/
structure ExpressionFunction where
  Name : String
  Parameters : List String
  ReturnType : String
deriving DecidableEq, Repr

/-- The dynamic value stored in a token (an untyped interface value in Go),
keyed by the token kind: a float (modelled as a rational), a boolean, a
string, an abstract parsed time, a function descriptor, the accessor path
segments, or the single rune of a clause token. -/
inductive TokenValue where
  | str : String → TokenValue
  | num : ℚ → TokenValue
  | bool : Bool → TokenValue
  | time : Nat → TokenValue
  | func : ExpressionFunction → TokenValue
  | strs : List String → TokenValue
  | ch : Char → TokenValue
deriving DecidableEq, Repr

/-- One emitted token: kind, decoded value, raw text, and half-open offsets. -/
structure ExpressionToken where
  Kind : TokenKind
  Value : TokenValue
  Raw : String
  Start : Nat
  End : Nat
deriving DecidableEq, Repr

/-! ## Character predicates (from `src/parser/parsing.go`) -/

/-- Models `unicode.IsSpace`: the Unicode white-space characters.  All of
them are listed; the tokenizer's inputs only ever exercise the ASCII ones. -/
def isSpace (c : Char) : Bool :=
  c = '\t' || c = '\n' || c = '\x0b' || c = '\x0c' || c = '\r' || c = ' ' ||
  c = '\u0085' || c = '\u00A0' || c = '\u1680' ||
  c = '\u2000' || c = '\u2001' || c = '\u2002' || c = '\u2003' ||
  c = '\u2004' || c = '\u2005' || c = '\u2006' || c = '\u2007' ||
  c = '\u2008' || c = '\u2009' || c = '\u200A' ||
  c = '\u2028' || c = '\u2029' || c = '\u202F' || c = '\u205F' ||
  c = '\u3000'

/-- Models `unicode.IsDigit` on the ASCII range (`0`-`9`). -/
def isDigit (c : Char) : Bool :=
  '0' ≤ c && c ≤ '9'

/-- Models `unicode.IsLetter` on the ASCII range. -/
def isLetter (c : Char) : Bool :=
  ('a' ≤ c && c ≤ 'z') || ('A' ≤ c && c ≤ 'Z')

/-- Models `unicode.ToLower` on the ASCII range. -/
def toLower (c : Char) : Char :=
  if 'A' ≤ c && c ≤ 'Z' then Char.ofNat (c.toNat + 32) else c

/-- Models `unicode.ToUpper` on the ASCII range. -/
def toUpper (c : Char) : Char :=
  if 'a' ≤ c && c ≤ 'z' then Char.ofNat (c.toNat - 32) else c

/-- `isHexDigit` from the source: lower-case the rune, then accept digits
and `a`-`f`. -/
def isHexDigit (c : Char) : Bool :=
  let l := toLower c
  isDigit l || l = 'a' || l = 'b' || l = 'c' || l = 'd' || l = 'e' || l = 'f'

/-- `isNumeric` from the source: a digit or a period. -/
def isNumeric (c : Char) : Bool :=
  isDigit c || c = '.'

/-- `isNotQuote` from the source. -/
def isNotQuote (c : Char) : Bool :=
  c ≠ '\'' && c ≠ '"'

/-- `isVariableName` from the source. -/
def isVariableName (c : Char) : Bool :=
  isLetter c || isDigit c || c = '_' || c = '.'

/-- `isNotAlphanumeric` from the source. -/
def isNotAlphanumeric (c : Char) : Bool :=
  !(isDigit c || isLetter c || c = '(' || c = ')' || c = '[' || c = ']' ||
    !(isNotQuote c))

/-- `isNotClosingBracket` from the source. -/
def isNotClosingBracket (c : Char) : Bool :=
  c ≠ ']'

/-- `getFirstRune` from the source: the first rune, or rune 0 for "". -/
def getFirstRune (s : String) : Char :=
  match s.toList with
  | [] => Char.ofNat 0
  | c :: _ => c

/-! ## Numeric parsing helpers -/

/-- Decimal value of a digit list (most significant first). -/
def digitsVal (cs : List Char) : Nat :=
  cs.foldl (fun a c => a * 10 + (c.toNat - 48)) 0

/-- Value of one hexadecimal digit. -/
def hexDigitVal (c : Char) : Nat :=
  if isDigit c then c.toNat - 48 else (toLower c).toNat - 87

/-- Value of a hexadecimal digit list (most significant first). -/
def hexVal (cs : List Char) : Nat :=
  cs.foldl (fun a c => a * 16 + hexDigitVal c) 0

/-- Models `strconv.ParseUint(s, 16, 64)`: a non-empty string of hex digits
whose value fits in an unsigned 64-bit integer; anything else is an error. -/
def parseUintHex (s : String) : Option Nat :=
  let cs := s.toList
  if cs ≠ [] ∧ cs.all isHexDigit ∧ hexVal cs < 2 ^ 64 then some (hexVal cs)
  else none

/-- Models `strconv.ParseFloat(s, 64)` on the fragment the numeric scan
produces without escape sequences: strings of digits and periods.  Such a
string parses exactly when it has at least one digit and at most one period;
its value is exact here (a rational), which agrees with the 64-bit float for
every value this development evaluates.  Exotic spellings reachable only via
backslash escapes inside a numeric literal (exponents, signs) are rejected
by this model. -/
def parseFloat (s : String) : Option ℚ :=
  let cs := s.toList
  if cs ≠ [] ∧ cs.all isNumeric ∧ cs.count '.' ≤ 1 ∧ cs.any isDigit then
    let ip := cs.takeWhile (fun c => c ≠ '.')
    let fp := (cs.dropWhile (fun c => c ≠ '.')).drop 1
    some (mkRat (digitsVal ip * 10 ^ fp.length + digitsVal fp) (10 ^ fp.length))
  else none

/-! ## Character stream (`lexerStream`) -/

/-- The character stream: the source runes and a cursor. -/
structure LexerStream where
  source : List Char
  position : Nat
deriving DecidableEq, Repr

/-- `canRead` from the source. -/
def canRead (s : LexerStream) : Bool :=
  s.position < s.source.length

/-- `readCharacter` from the source: the rune under the cursor, and the
stream advanced by one.  Go indexes unconditionally (and panics out of
range); every call site below is guarded by `canRead`, so the padding
default is never observed on reachable states. -/
def readCharacter (s : LexerStream) : Char × LexerStream :=
  (s.source.getD s.position (Char.ofNat 0), ⟨s.source, s.position + 1⟩)

/-- `rewind` from the source: move the cursor back by `n` (forward for
negative `n`). -/
def rewind (s : LexerStream) (n : Int) : LexerStream :=
  ⟨s.source, ((s.position : Int) - n).toNat⟩

/-! ## Buffered reads (`readUntilFalse`, `readTokenUntilFalse`)

The Go loops are transcribed with an explicit fuel argument so that every
definition is structurally recursive and evaluates inside the kernel.  Each
iteration of the Go loop consumes at least one character, so a fuel of
`source.length + 1` can never run out; the fuel-zero branch replicates the
loop's stream-exhausted exit. -/

/-- Loop body of `readUntilFalse`: read characters until the condition
fails or whitespace breaks the token, honoring backslash escapes; the
second component reports whether the loop ended by meeting the condition
(`conditioned` in the source) rather than by exhausting the stream. -/
def readUntilFalseAux (includeWhitespace breakWhitespace allowEscaping : Bool)
    (condition : Char → Bool) :
    Nat → LexerStream → String → String × Bool × LexerStream
  | 0, s, buffer => (buffer, false, s)
  | fuel + 1, s, buffer =>
    if canRead s then
      let c := (readCharacter s).1
      let s1 := (readCharacter s).2
      if allowEscaping && c = '\\' then
        let c2 := (readCharacter s1).1
        let s2 := (readCharacter s1).2
        readUntilFalseAux includeWhitespace breakWhitespace allowEscaping
          condition fuel s2 (buffer.push c2)
      else if isSpace c && breakWhitespace && buffer.length > 0 then
        (buffer, true, s1)
      else if isSpace c && !includeWhitespace then
        readUntilFalseAux includeWhitespace breakWhitespace allowEscaping
          condition fuel s1 buffer
      else if condition c then
        readUntilFalseAux includeWhitespace breakWhitespace allowEscaping
          condition fuel s1 (buffer.push c)
      else
        (buffer, true, rewind s1 1)
    else (buffer, false, s)

/-- `readUntilFalse` from the source. -/
def readUntilFalse (s : LexerStream)
    (includeWhitespace breakWhitespace allowEscaping : Bool)
    (condition : Char → Bool) : String × Bool × LexerStream :=
  readUntilFalseAux includeWhitespace breakWhitespace allowEscaping condition
    (s.source.length + 1) s ""

/-- `readTokenUntilFalse` from the source: rewind one character, then read
while the condition holds (whitespace breaks the token, escapes allowed). -/
def readTokenUntilFalse (s : LexerStream) (condition : Char → Bool) :
    String × LexerStream :=
  let r := readUntilFalse (rewind s 1) false true true condition
  (r.1, r.2.2)

/-! ## Lexer states and symbol tables

These live in repository files that are not under `src/` (only
`src/parser/parsing.go`, their caller, is available), so they are modelled
from the spec. -/

/-- Modelled from the spec: the lexer-state table (`validLexerStates`,
`lexerState`, absent from `src/`).  Per the spec the current state is a
deterministic projection of the most recently emitted token's kind, so a
state is represented by that kind, with `UNKNOWN` as the initial state. -/
def getLexerStateForToken (kind : TokenKind) : TokenKind :=
  kind

/-- Modelled from the spec: `lexerState.canTransitionTo` (absent from
`src/`).  The tokenizer consults it only for the PREFIX kind; per the spec a
prefix operator is valid exactly where an operand may legally start: at the
start of the expression, after an opening parenthesis or a separator, or
after another operator.  For every other queried kind the table is not
specified and not consulted; those queries answer `true`. -/
def canTransitionTo (state kind : TokenKind) : Bool :=
  match kind with
  | .PREFIX =>
    match state with
    | .UNKNOWN | .CLAUSE | .SEPARATOR | .PREFIX | .MODIFIER
    | .LOGICALOP | .COMPARATOR | .TERNARY => true
    | _ => false
  | _ => true

/-- Modelled from the spec: the registered prefix symbols (unary operators
such as negation and inversion). -/
def prefixSymbols : List String :=
  ["-", "!", "~"]

/-- Modelled from the spec: the registered modifier (binary
arithmetic-style) symbols. -/
def modifierSymbols : List String :=
  ["+", "-", "*", "/", "%", "**", "&", "|", "^", ">>", "<<"]

/-- Modelled from the spec: the registered logical symbols. -/
def logicalSymbols : List String :=
  ["&&", "||"]

/-- Modelled from the spec: the registered comparator symbols. -/
def comparatorSymbols : List String :=
  ["==", "!=", ">", ">=", "<", "<=", "=~", "!~"]

/-- Modelled from the spec: the registered ternary symbols. -/
def ternarySymbols : List String :=
  ["?", ":", "??"]

/-! ## Token classification -/

/-- Classification of a symbol run (`readToken`, lines 244-285): a prefix
symbol when the state allows a PREFIX transition, otherwise the modifier,
logical, comparator and ternary tables in that order, otherwise a fatal
invalid-token error. -/
def classifySymbolRun (state : TokenKind) (tokenString : String) :
    Except String TokenKind :=
  if canTransitionTo state .PREFIX && prefixSymbols.contains tokenString then
    .ok .PREFIX
  else if modifierSymbols.contains tokenString then .ok .MODIFIER
  else if logicalSymbols.contains tokenString then .ok .LOGICALOP
  else if comparatorSymbols.contains tokenString then .ok .COMPARATOR
  else if ternarySymbols.contains tokenString then .ok .TERNARY
  else .error ("Invalid token: '" ++ tokenString ++ "'")

/-- Index of the first occurrence of `c` in `s`, or `-1` (`strings.Index`
from the source; the code only compares the result with `0`). -/
def goIndexOf (s : String) (c : Char) : Int :=
  match s.toList.findIdx? (fun x => x = c) with
  | some i => (i : Int)
  | none => -1

/-- Last character of `s`, or rune 0 for "" (the source reads
`tokenString[len(tokenString)-1]`; the run here is never empty). -/
def strBack (s : String) : Char :=
  s.toList.getLastD (Char.ofNat 0)

/-- Models `strings.Split(s, sep)` for the single-character separator the
source uses: cut at every occurrence of `sep`, keeping empty parts. -/
def splitOnCharAux (sep : Char) : List Char → List Char → List String
  | [], acc => [String.mk acc]
  | c :: cs, acc =>
    if c = sep then String.mk acc :: splitOnCharAux sep cs []
    else splitOnCharAux sep cs (acc ++ [c])

/-- `strings.Split` on one separator character. -/
def splitOnChar (s : String) (sep : Char) : List String :=
  splitOnCharAux sep s.toList []

/-- Classification of a letter-led run (`readToken`, lines 143-205): start
as a VARIABLE, then the boolean literals, then the textual `in` operator,
then the function lookup, and finally the accessor treatment, each check
overwriting the kind and value chosen by the previous ones. -/
def classifyLetterRun (functions : List (String × ExpressionFunction))
    (tokenString : String) : Except String (TokenKind × TokenValue) :=
  let kind : TokenKind := .VARIABLE
  let tokenValue : TokenValue := .str tokenString
  let p :=
    if tokenValue = .str "true" then ((.BOOLEAN : TokenKind), TokenValue.bool true)
    else if tokenValue = .str "false" then ((.BOOLEAN : TokenKind), TokenValue.bool false)
    else (kind, tokenValue)
  let p :=
    if p.2 = .str "in" || p.2 = .str "IN" then ((.COMPARATOR : TokenKind), TokenValue.str "in")
    else p
  let p :=
    match functions.lookup tokenString with
    | some f => ((.FUNCTION : TokenKind), TokenValue.func f)
    | none => p
  if goIndexOf tokenString '.' > 0 then
    if strBack tokenString = '.' then
      .error ("Hanging accessor on token '" ++ tokenString ++ "'")
    else
      let splits := splitOnChar tokenString '.'
      match (splits.drop 1).find?
          (fun seg => toUpper (getFirstRune seg) ≠ getFirstRune seg) with
      | some seg =>
        .error ("Unable to access unexported field '" ++ seg ++ "' in token '"
          ++ tokenString ++ "'")
      | none => .ok (.ACCESSOR, .strs splits)
  else .ok p

/-- Result of `readToken`: a fatal error message, "no further token" (the
loop ran out of input), or one token plus the advanced stream. -/
inductive ReadResult where
  | err : String → ReadResult
  | notFound : LexerStream → ReadResult
  | token : ExpressionToken → LexerStream → ReadResult
deriving DecidableEq, Repr

/-- The digits-and-period tail of a numeric literal (`readToken`, lines
107-115): scan with `isNumeric`, then parse as a 64-bit float. -/
def readNumericTail (position : Nat) (s : LexerStream) : ReadResult :=
  let r := readTokenUntilFalse s isNumeric
  let tokenString := r.1
  let s2 := r.2
  match parseFloat tokenString with
  | none =>
    .err ("Unable to parse numeric value '" ++ tokenString ++ "' to float64\n")
  | some q =>
    .token ⟨.NUMERIC, .num q, tokenString, position, s2.position⟩ s2

/-- Loop body of `readToken` (lines 53-294), with fuel for the
whitespace-skipping iterations.  `tpt` abstracts `tryParseTime`: the result
of attempting the fixed list of timestamp formats on a quoted literal. -/
def readTokenAux (functions : List (String × ExpressionFunction))
    (tpt : String → Option Nat) :
    Nat → TokenKind → LexerStream → ReadResult
  | 0, _, s => .notFound s
  | fuel + 1, state, s =>
    if canRead s then
      let position := s.position
      let c := (readCharacter s).1
      let s1 := (readCharacter s).2
      if isSpace c then readTokenAux functions tpt fuel state s1
      else if isNumeric c then
        if canRead s1 && c = '0' then
          let c2 := (readCharacter s1).1
          let s2 := (readCharacter s1).2
          if canRead s2 && c2 = 'x' then
            let r := readUntilFalse s2 false true true isHexDigit
            let tokenString := r.1
            let s3 := r.2.2
            match parseUintHex tokenString with
            | none =>
              .err ("Unable to parse hex value '" ++ tokenString
                ++ "' to uint64\n")
            | some v =>
              .token ⟨.NUMERIC, .num (v : ℚ), tokenString, position,
                s3.position⟩ s3
          else readNumericTail position (rewind s2 1)
        else readNumericTail position s1
      else if c = ',' then
        .token ⟨.SEPARATOR, .str ",", ",", position, s1.position⟩ s1
      else if c = '[' then
        let r := readUntilFalse s1 true false true isNotClosingBracket
        if !r.2.1 then .err "Unclosed parameter bracket"
        else
          let s2 := rewind r.2.2 (-1)
          .token ⟨.VARIABLE, .str r.1, r.1, position, s2.position⟩ s2
      else if isLetter c then
        let r := readTokenUntilFalse s1 isVariableName
        let tokenString := r.1
        let s2 := r.2
        match classifyLetterRun functions tokenString with
        | .error m => .err m
        | .ok (kind, tv) =>
          .token ⟨kind, tv, tokenString, position, s2.position⟩ s2
      else if !(isNotQuote c) then
        let r := readUntilFalse s1 true false true isNotQuote
        if !r.2.1 then .err "Unclosed string literal"
        else
          let s2 := rewind r.2.2 (-1)
          match tpt r.1 with
          | some t => .token ⟨.TIME, .time t, r.1, position, s2.position⟩ s2
          | none => .token ⟨.STRING, .str r.1, r.1, position, s2.position⟩ s2
      else if c = '(' then
        .token ⟨.CLAUSE, .ch '(', "(", position, s1.position⟩ s1
      else if c = ')' then
        .token ⟨.CLAUSE_CLOSE, .ch ')', ")", position, s1.position⟩ s1
      else
        let r := readTokenUntilFalse s1 isNotAlphanumeric
        match classifySymbolRun state r.1 with
        | .error m => .err m
        | .ok kind =>
          .token ⟨kind, .str r.1, r.1, position, r.2.position⟩ r.2
    else .notFound s

/-- `readToken` from the source. -/
def readToken (functions : List (String × ExpressionFunction))
    (tpt : String → Option Nat) (state : TokenKind) (s : LexerStream) :
    ReadResult :=
  readTokenAux functions tpt (s.source.length + 1) state s

/-! ## Balance check and the tokenizer entry point -/

/-- Loop of `checkBalance`: walk the tokens keeping the parenthesis
counter. -/
def checkBalanceAux : List ExpressionToken → Int → Int
  | [], parens => parens
  | t :: ts, parens =>
    if t.Kind = .CLAUSE then checkBalanceAux ts (parens + 1)
    else if t.Kind = .CLAUSE_CLOSE then checkBalanceAux ts (parens - 1)
    else checkBalanceAux ts parens

/-- `checkBalance` from the source: `some` an error message when the
parenthesis counter does not net to zero. -/
def checkBalance (tokens : List ExpressionToken) : Option String :=
  if checkBalanceAux tokens 0 ≠ 0 then some "Unbalanced parenthesis" else none

/-- Scanning loop of `ParseTokens` (lines 24-43): read tokens until the
stream is exhausted or a fatal error occurs, updating the lexer state from
each emitted token's kind.  Each emitted token consumes at least one
character, so a fuel of `source.length + 1` never runs out; the fuel-zero
branch mirrors the loop's normal exit. -/
def scanTokensAux (functions : List (String × ExpressionFunction))
    (tpt : String → Option Nat) :
    Nat → TokenKind → LexerStream → List ExpressionToken →
    Except String (List ExpressionToken)
  | 0, _, _, acc => .ok acc
  | fuel + 1, state, s, acc =>
    if canRead s then
      match readToken functions tpt state s with
      | .err m => .error m
      | .notFound _ => .ok acc
      | .token t s' =>
        scanTokensAux functions tpt fuel (getLexerStateForToken t.Kind) s'
          (acc ++ [t])
    else .ok acc

/-- The full scanning phase of `ParseTokens`, before the balance check. -/
def scanTokens (functions : List (String × ExpressionFunction))
    (tpt : String → Option Nat) (expression : String) :
    Except String (List ExpressionToken) :=
  scanTokensAux functions tpt (expression.toList.length + 1) .UNKNOWN
    ⟨expression.toList, 0⟩ []

/-- `ParseTokens` from the source: scan, then check parenthesis balance. -/
def ParseTokens (functions : List (String × ExpressionFunction))
    (tpt : String → Option Nat) (expression : String) :
    Except String (List ExpressionToken) :=
  match scanTokens functions tpt expression with
  | .error m => .error m
  | .ok ts =>
    match checkBalance ts with
    | some m => .error m
    | none => .ok ts

/-- A time parser that recognizes nothing; used to instantiate `tpt` for
concrete inputs that contain no quoted literal, where the time parser is
never consulted. -/
def noTime : String → Option Nat :=
  fun _ => none

/-! ## Tree renderer (`src/unnamed/part_000`)

The renderer consumes a syntax tree of nodes, each a token plus ordered
children.  Its token type (`ast.Token`, declared outside `src/`) exposes
the kind, the operator text (`Content`) and the dynamic value; the value is
only ever passed through Go's `%v` formatting, so it is modelled here by
the string that formatting produces. -/

/-- A renderer token: kind, operator text, and the printed form of the
dynamic value. -/
structure RToken where
  Kind : TokenKind
  Content : String
  Value : String
deriving DecidableEq, Repr

/-- A syntax tree node (`ASTNode`): a token and its ordered children. -/
inductive ASTNode where
  | mk : RToken → List ASTNode → ASTNode

/-- The token of a node. -/
def ASTNode.Token : ASTNode → RToken
  | .mk t _ => t

/-- The children of a node. -/
def ASTNode.Children : ASTNode → List ASTNode
  | .mk _ c => c

/-- `strings.Repeat("  ", indent)`: the indentation string, two spaces per
depth level. -/
def indentString (indent : Nat) : String :=
  String.join (List.replicate indent "  ")

mutual
/-- `generate` from the source: render a node at the given depth.  Go
indexes `Children` unconditionally and panics when an index is missing;
that failure is modelled by `none`. -/
def generate : ASTNode → Nat → Option String
  | .mk tok children, indent =>
    let indentStr := indentString indent
    match tok.Kind, children with
    | .LOGICALOP, c0 :: c1 :: _ =>
      match generate c0 (indent + 1), generate c1 (indent + 1) with
      | some s0, some s1 =>
        let code := s0 ++ "\n" ++ indentStr ++ tok.Content ++ "\n" ++
          indentStr ++ s1 ++ " " ++ indentStr
        if indent > 0 then
          some ("(\n" ++ indentStr ++ code ++ "\n" ++ indentStr ++ ")")
        else some code
      | _, _ => none
    | .LOGICALOP, _ => none
    | .COMPARATOR, c0 :: c1 :: _ =>
      match generate c0 (indent + 1), generate c1 (indent + 1) with
      | some s0, some s1 => some (s0 ++ " " ++ tok.Content ++ " " ++ s1)
      | _, _ => none
    | .COMPARATOR, _ => none
    | .PREFIX, c0 :: _ =>
      match generate c0 (indent + 1) with
      | some s0 => some (tok.Content ++ "(" ++ s0 ++ indentStr ++ ")")
      | none => none
    | .PREFIX, _ => none
    | .FUNCTION, cs =>
      match generateList cs 0 with
      | some params =>
        some (tok.Content ++ "( " ++ String.intercalate ", " params ++ " )")
      | none => none
    | .VARIABLE, _ => some tok.Value
    | .STRING, _ => some tok.Value
    | .NUMERIC, _ => some tok.Value
    | .ARRAY, cs =>
      match generateList cs (indent + 1) with
      | some elements =>
        some ("( " ++ String.intercalate ", " elements ++ " )")
      | none => none
    | _, _ => some ""
/-- Renders a child list in order (the `params` / `elements` accumulation
loops of `generate`). -/
def generateList : List ASTNode → Nat → Option (List String)
  | [], _ => some []
  | c :: cs, d =>
    match generate c d, generateList cs d with
    | some s, some rest => some (s :: rest)
    | _, _ => none
end

/-- The arity a node's kind requires of its child list for the renderer's
child accesses to be in bounds: LOGICALOP and COMPARATOR read two children,
PREFIX reads one, every other kind reads none beyond iteration. -/
def arityOk (kind : TokenKind) (n : Nat) : Bool :=
  match kind with
  | .LOGICALOP | .COMPARATOR => decide (2 ≤ n)
  | .PREFIX => decide (1 ≤ n)
  | _ => true

mutual
/-- A tree satisfies the arity invariant when every node's child count is
consistent with its kind. -/
def wellFormed : ASTNode → Bool
  | .mk tok children => arityOk tok.Kind children.length && allWellFormed children
/-- Every tree in the list satisfies the arity invariant. -/
def allWellFormed : List ASTNode → Bool
  | [] => true
  | c :: cs => wellFormed c && allWellFormed cs
end

/-- The kinds the renderer formats; every other kind falls to the
defensive default and renders as empty text. -/
def renderedKinds : List TokenKind :=
  [.LOGICALOP, .COMPARATOR, .PREFIX, .FUNCTION, .VARIABLE, .STRING,
   .NUMERIC, .ARRAY]

/-! ## Theorems -/

deriving instance DecidableEq for Except

/-- A string absent from a list is not contained in it (bridging `∈` and the
boolean `contains` the symbol-table lookups use). -/
theorem contains_eq_false_of_not_mem {l : List String} {a : String}
    (h : a ∉ l) : l.contains a = false := by
  cases hc : l.contains a
  · rfl
  · exact absurd (List.mem_of_elem_eq_true hc) h

/-- When the PREFIX case of the claim does not apply, the guard of the
prefix branch of `classifySymbolRun` is false. -/
theorem prefixGuard_eq_false {state : TokenKind} {run : String}
    (h : ¬(canTransitionTo state .PREFIX = true ∧ run ∈ prefixSymbols)) :
    (canTransitionTo state .PREFIX && prefixSymbols.contains run) = false := by
  cases hc : canTransitionTo state .PREFIX
  · rfl
  · rw [contains_eq_false_of_not_mem fun hm => h ⟨hc, hm⟩, Bool.and_false]

/-- C1: a symbol run is classified by priority: PREFIX when the lexer state
permits a PREFIX transition and the run is a registered prefix symbol;
otherwise the modifier, logical, comparator and ternary tables in that
order; a run matching none is a fatal invalid-token error.  In particular
`tokenize("-1")` classifies the leading `-` as PREFIX and
`tokenize("1 - 1")` classifies the middle `-` as MODIFIER. -/
theorem claim1_symbol_priority :
    (∀ (state : TokenKind) (run : String),
      (canTransitionTo state .PREFIX = true → run ∈ prefixSymbols →
        classifySymbolRun state run = .ok .PREFIX) ∧
      (¬(canTransitionTo state .PREFIX = true ∧ run ∈ prefixSymbols) →
        run ∈ modifierSymbols → classifySymbolRun state run = .ok .MODIFIER) ∧
      (¬(canTransitionTo state .PREFIX = true ∧ run ∈ prefixSymbols) →
        run ∉ modifierSymbols → run ∈ logicalSymbols →
        classifySymbolRun state run = .ok .LOGICALOP) ∧
      (¬(canTransitionTo state .PREFIX = true ∧ run ∈ prefixSymbols) →
        run ∉ modifierSymbols → run ∉ logicalSymbols →
        run ∈ comparatorSymbols →
        classifySymbolRun state run = .ok .COMPARATOR) ∧
      (¬(canTransitionTo state .PREFIX = true ∧ run ∈ prefixSymbols) →
        run ∉ modifierSymbols → run ∉ logicalSymbols →
        run ∉ comparatorSymbols → run ∈ ternarySymbols →
        classifySymbolRun state run = .ok .TERNARY) ∧
      (¬(canTransitionTo state .PREFIX = true ∧ run ∈ prefixSymbols) →
        run ∉ modifierSymbols → run ∉ logicalSymbols →
        run ∉ comparatorSymbols → run ∉ ternarySymbols →
        classifySymbolRun state run =
          .error ("Invalid token: '" ++ run ++ "'"))) ∧
    ParseTokens [] noTime "-1" =
      .ok [⟨.PREFIX, .str "-", "-", 0, 1⟩, ⟨.NUMERIC, .num 1, "1", 1, 2⟩] ∧
    ParseTokens [] noTime "1 - 1" =
      .ok [⟨.NUMERIC, .num 1, "1", 0, 2⟩, ⟨.MODIFIER, .str "-", "-", 2, 4⟩,
           ⟨.NUMERIC, .num 1, "1", 4, 5⟩] := by
  refine ⟨?_, by decide, by decide⟩
  intro state run
  refine ⟨?_, ?_, ?_, ?_, ?_, ?_⟩
  · intro h1 h2
    simp only [classifySymbolRun, h1, List.elem_eq_true_of_mem h2,
      Bool.and_self, if_pos]
  · intro h1 h2
    simp only [classifySymbolRun, prefixGuard_eq_false h1, Bool.false_eq_true,
      if_false, List.elem_eq_true_of_mem h2, if_pos]
  · intro h1 h2 h3
    simp only [classifySymbolRun, prefixGuard_eq_false h1, Bool.false_eq_true,
      if_false, contains_eq_false_of_not_mem h2, List.elem_eq_true_of_mem h3,
      if_pos]
  · intro h1 h2 h3 h4
    simp only [classifySymbolRun, prefixGuard_eq_false h1, Bool.false_eq_true,
      if_false, contains_eq_false_of_not_mem h2, contains_eq_false_of_not_mem h3,
      List.elem_eq_true_of_mem h4, if_pos]
  · intro h1 h2 h3 h4 h5
    simp only [classifySymbolRun, prefixGuard_eq_false h1, Bool.false_eq_true,
      if_false, contains_eq_false_of_not_mem h2, contains_eq_false_of_not_mem h3,
      contains_eq_false_of_not_mem h4, List.elem_eq_true_of_mem h5, if_pos]
  · intro h1 h2 h3 h4 h5
    simp only [classifySymbolRun, prefixGuard_eq_false h1, Bool.false_eq_true,
      if_false, contains_eq_false_of_not_mem h2, contains_eq_false_of_not_mem h3,
      contains_eq_false_of_not_mem h4, contains_eq_false_of_not_mem h5]

/-- C1 witness: the classification priority evaluated at one concrete run
per branch. -/
theorem claim1_witness :
    classifySymbolRun .UNKNOWN "-" = .ok .PREFIX ∧
    classifySymbolRun .NUMERIC "-" = .ok .MODIFIER ∧
    classifySymbolRun .NUMERIC "&&" = .ok .LOGICALOP ∧
    classifySymbolRun .NUMERIC "==" = .ok .COMPARATOR ∧
    classifySymbolRun .NUMERIC "?" = .ok .TERNARY ∧
    classifySymbolRun .UNKNOWN "@" = .error "Invalid token: '@'" :=
  ⟨(claim1_symbol_priority.1 .UNKNOWN "-").1 (by decide) (by decide),
   (claim1_symbol_priority.1 .NUMERIC "-").2.1 (by decide) (by decide),
   (claim1_symbol_priority.1 .NUMERIC "&&").2.2.1 (by decide) (by decide)
     (by decide),
   (claim1_symbol_priority.1 .NUMERIC "==").2.2.2.1 (by decide) (by decide)
     (by decide) (by decide),
   (claim1_symbol_priority.1 .NUMERIC "?").2.2.2.2.1 (by decide) (by decide)
     (by decide) (by decide) (by decide),
   (claim1_symbol_priority.1 .UNKNOWN "@").2.2.2.2.2 (by decide) (by decide)
     (by decide) (by decide) (by decide)⟩

/-- C2 counterexample: the mixed-case spellings `In` and `iN` are NOT
recognized as the textual comparator; the tokenizer emits plain VARIABLE
tokens for them, against the claim's COMPARATOR. -/
theorem claim2_counterexample :
    ParseTokens [] noTime "In" = .ok [⟨.VARIABLE, .str "In", "In", 0, 2⟩] ∧
    ParseTokens [] noTime "iN" = .ok [⟨.VARIABLE, .str "iN", "iN", 0, 2⟩] :=
  ⟨by decide, by decide⟩

/-- C2 (amended): only the exact spellings `in` and `IN` are recognized as
the textual comparator; for these, when the run is not a registered
function name, the token kind is COMPARATOR with canonical lowercase value
`in`. -/
theorem claim2_in_comparator :
    (∀ (functions : List (String × ExpressionFunction)) (s : String),
      (s = "in" ∨ s = "IN") → functions.lookup s = none →
      classifyLetterRun functions s = .ok (.COMPARATOR, .str "in")) ∧
    ParseTokens [] noTime "in" = .ok [⟨.COMPARATOR, .str "in", "in", 0, 2⟩] ∧
    ParseTokens [] noTime "IN" = .ok [⟨.COMPARATOR, .str "in", "IN", 0, 2⟩] := by
  refine ⟨?_, by decide, by decide⟩
  rintro functions s (rfl | rfl) h <;> simp only [classifyLetterRun, h] <;> decide

/-- C2 witness: both recognized spellings classified with an empty
function mapping. -/
theorem claim2_witness :
    classifyLetterRun [] "in" = .ok (.COMPARATOR, .str "in") ∧
    classifyLetterRun [] "IN" = .ok (.COMPARATOR, .str "in") :=
  ⟨claim2_in_comparator.1 [] "in" (Or.inl rfl) rfl,
   claim2_in_comparator.1 [] "IN" (Or.inr rfl) rfl⟩

/-- C3 counterexample: a registered function name containing a period is
emitted as ACCESSOR, not FUNCTION: the accessor treatment runs after the
function-mapping check and overwrites its result. -/
theorem claim3_counterexample :
    ParseTokens [("foo.Bar", ⟨"foo.Bar", [], ""⟩)] noTime "foo.Bar" =
      .ok [⟨.ACCESSOR, .strs ["foo", "Bar"], "foo.Bar", 0, 7⟩] := by decide

/-- C3 (amended): a letter-led run that is an exact key of the function
mapping is emitted as FUNCTION carrying the descriptor as value only when
the run contains no non-leading period; the accessor treatment takes
priority over the function-mapping check. -/
theorem claim3_function_period :
    (∀ (functions : List (String × ExpressionFunction)) (s : String)
      (f : ExpressionFunction),
      functions.lookup s = some f → goIndexOf s '.' ≤ 0 →
      classifyLetterRun functions s = .ok (.FUNCTION, .func f)) ∧
    ParseTokens [("foo", ⟨"foo", [], ""⟩)] noTime "foo" =
      .ok [⟨.FUNCTION, .func ⟨"foo", [], ""⟩, "foo", 0, 3⟩] := by
  refine ⟨?_, by decide⟩
  intro functions s f h hidx
  simp only [classifyLetterRun, h]
  rw [if_neg (by omega)]

/-- C3 witness: a registered period-free name classified as FUNCTION. -/
theorem claim3_witness :
    classifyLetterRun [("foo", ⟨"foo", [], ""⟩)] "foo" =
      .ok (.FUNCTION, .func ⟨"foo", [], ""⟩) :=
  claim3_function_period.1 [("foo", ⟨"foo", [], ""⟩)] "foo" ⟨"foo", [], ""⟩
    (by decide) (by decide)

/-- The claim's independent reading of the balance: CLAUSE tokens count +1
and CLAUSE_CLOSE tokens count -1 over the emitted sequence. -/
def clauseNet (ts : List ExpressionToken) : Int :=
  (ts.countP (fun t => decide (t.Kind = .CLAUSE)) : Int) -
  (ts.countP (fun t => decide (t.Kind = .CLAUSE_CLOSE)) : Int)

/-- The `checkBalance` loop computes the accumulator plus the net count. -/
theorem checkBalanceAux_eq (ts : List ExpressionToken) :
    ∀ parens, checkBalanceAux ts parens = parens + clauseNet ts := by
  induction ts with
  | nil => intro parens; simp [checkBalanceAux, clauseNet]
  | cons t ts ih =>
    intro parens
    by_cases h1 : t.Kind = .CLAUSE
    · have h2 : t.Kind ≠ .CLAUSE_CLOSE := by rw [h1]; intro hx; cases hx
      simp [checkBalanceAux, h1, clauseNet, ih, List.countP_cons, h2]
      omega
    · by_cases h2 : t.Kind = .CLAUSE_CLOSE
      · simp [checkBalanceAux, h1, h2, clauseNet, ih, List.countP_cons]
        omega
      · simp [checkBalanceAux, h1, h2, clauseNet, ih, List.countP_cons]

/-- C4: after a full scan producing token list `ts`, `ParseTokens` fails
with the unbalanced-parenthesis error exactly when the count of CLAUSE
(plus one each) and CLAUSE_CLOSE (minus one each) over `ts` is nonzero,
and otherwise returns `ts`; in particular `tokenize("(1 + 2")` fails with
that error. -/
theorem claim4_balance :
    (∀ (functions : List (String × ExpressionFunction))
      (tpt : String → Option Nat) (expression : String)
      (ts : List ExpressionToken),
      scanTokens functions tpt expression = .ok ts →
      ((ParseTokens functions tpt expression = .error "Unbalanced parenthesis" ↔
        clauseNet ts ≠ 0) ∧
       (clauseNet ts = 0 → ParseTokens functions tpt expression = .ok ts))) ∧
    ParseTokens [] noTime "(1 + 2" = .error "Unbalanced parenthesis" := by
  refine ⟨?_, by decide⟩
  intro functions tpt expression ts h
  have hbal : checkBalanceAux ts 0 = clauseNet ts := by
    rw [checkBalanceAux_eq]; omega
  constructor
  · constructor
    · intro hp h0
      rw [ParseTokens, h] at hp
      simp only [checkBalance, hbal,
        if_neg (show ¬clauseNet ts ≠ 0 by omega)] at hp
      cases hp
    · intro hne
      rw [ParseTokens, h]
      simp only [checkBalance, hbal, if_pos hne]
  · intro h0
    rw [ParseTokens, h]
    simp only [checkBalance, hbal, if_neg (show ¬clauseNet ts ≠ 0 by omega)]

/-- C4 witness: the balance characterization applied to the scan of
`"(1"`, whose net count is one. -/
theorem claim4_witness :
    ParseTokens [] noTime "(1" = .error "Unbalanced parenthesis" := by
  have h : scanTokens [] noTime "(1" =
      .ok [⟨.CLAUSE, .ch '(', "(", 0, 1⟩, ⟨.NUMERIC, .num 1, "1", 1, 2⟩] := by
    decide
  exact ((claim4_balance.1 [] noTime "(1" _ h).1).mpr (by decide)

/-- C5 counterexample: a letter-led run whose second segment starts with an
underscore is accepted as an ACCESSOR although that segment does not start
with an upper-case letter, against the claim's fatal error: the code only
rejects a first character that upper-casing changes. -/
theorem claim5_counterexample :
    ParseTokens [] noTime "foo._a" =
      .ok [⟨.ACCESSOR, .strs ["foo", "_a"], "foo._a", 0, 6⟩] := by decide

/-- C5 (amended): a letter-led run with a non-leading period fails on a
trailing period, or when some segment after the first begins with a
character that upper-casing changes (a lower-case letter) - the first such
segment is named; segments led by non-cased characters (digits,
underscore) pass, and otherwise an ACCESSOR carrying the period-separated
segments is emitted.  `tokenize("foo.Bar")` yields that ACCESSOR and
`tokenize("foo.bar")` fails. -/
theorem claim5_accessor_rules :
    (∀ (functions : List (String × ExpressionFunction)) (s : String),
      goIndexOf s '.' > 0 → strBack s = '.' →
      classifyLetterRun functions s =
        .error ("Hanging accessor on token '" ++ s ++ "'")) ∧
    (∀ (functions : List (String × ExpressionFunction)) (s seg : String),
      goIndexOf s '.' > 0 → ¬(strBack s = '.') →
      ((splitOnChar s '.').drop 1).find?
        (fun seg => toUpper (getFirstRune seg) ≠ getFirstRune seg) =
        some seg →
      classifyLetterRun functions s =
        .error ("Unable to access unexported field '" ++ seg ++ "' in token '"
          ++ s ++ "'")) ∧
    (∀ (functions : List (String × ExpressionFunction)) (s : String),
      goIndexOf s '.' > 0 → ¬(strBack s = '.') →
      ((splitOnChar s '.').drop 1).find?
        (fun seg => toUpper (getFirstRune seg) ≠ getFirstRune seg) = none →
      classifyLetterRun functions s =
        .ok (.ACCESSOR, .strs (splitOnChar s '.'))) ∧
    ParseTokens [] noTime "foo.Bar" =
      .ok [⟨.ACCESSOR, .strs ["foo", "Bar"], "foo.Bar", 0, 7⟩] ∧
    ParseTokens [] noTime "foo.bar" =
      .error "Unable to access unexported field 'bar' in token 'foo.bar'" := by
  refine ⟨?_, ?_, ?_, by decide, by decide⟩
  · intro functions s h1 h2
    simp only [classifyLetterRun, if_pos h1, if_pos h2]
  · intro functions s seg h1 h2 h3
    simp only [classifyLetterRun, if_pos h1, if_neg h2, h3]
  · intro functions s h1 h2 h3
    simp only [classifyLetterRun, if_pos h1, if_neg h2, h3]

/-- C5 witness: the three accessor outcomes at concrete runs. -/
theorem claim5_witness :
    classifyLetterRun [] "a." = .error "Hanging accessor on token 'a.'" ∧
    classifyLetterRun [] "a.b" =
      .error "Unable to access unexported field 'b' in token 'a.b'" ∧
    classifyLetterRun [] "a.B" = .ok (.ACCESSOR, .strs ["a", "B"]) :=
  ⟨claim5_accessor_rules.1 [] "a." (by decide) (by decide),
   claim5_accessor_rules.2.1 [] "a.b" "b" (by decide) (by decide) (by decide),
   claim5_accessor_rules.2.2.1 [] "a.B" (by decide) (by decide) (by decide)⟩

/-- The hexadecimal digit characters, as the scan accepts them. -/
def hexDigitChars : List Char := "0123456789abcdefABCDEF".toList

/-- Every hexadecimal digit character passes `isHexDigit`, is not
whitespace, and is not the escape character. -/
theorem hexChar_facts : ∀ c ∈ hexDigitChars,
    isHexDigit c = true ∧ isSpace c = false ∧ c ≠ '\\' := by decide

/-- The buffered read with the hex-digit condition consumes a remaining
suffix of hex digits whole and ends at the end of the stream. -/
theorem readUntilFalseAux_hex (ds : List Char) :
    ∀ (fuel : Nat) (src : List Char) (p : Nat) (buf : String),
      src.length - p < fuel → src.drop p = ds →
      (∀ c ∈ ds, c ∈ hexDigitChars) →
      readUntilFalseAux false true true isHexDigit fuel ⟨src, p⟩ buf =
        (String.mk (buf.data ++ ds), false, ⟨src, p + ds.length⟩) := by
  induction ds with
  | nil =>
    intro fuel src p buf hfuel hdrop _
    have hp : ¬ p < src.length := by
      intro hlt
      have := List.drop_eq_getElem_cons hlt
      rw [hdrop] at this
      cases this
    match fuel, hfuel with
    | fuel + 1, _ =>
      rw [readUntilFalseAux, if_neg (by simpa [canRead] using hp)]
      simp
  | cons c ds ih =>
    intro fuel src p buf hfuel hdrop hmem
    have hp : p < src.length := by
      by_contra hge
      rw [List.drop_eq_nil_of_le (by omega)] at hdrop
      cases hdrop
    have hgetelem : src[p] = c := by
      have := List.drop_eq_getElem_cons hp
      rw [hdrop] at this
      exact (List.cons.injEq _ _ _ _ ▸ this).1.symm
    have hget : (readCharacter ⟨src, p⟩).1 = c := by
      simp [readCharacter, List.getD, List.get?_eq_getElem?,
        List.getElem?_eq_getElem hp, hgetelem]
    obtain ⟨hhex, hsp, hbs⟩ := hexChar_facts c (hmem c (by simp))
    match fuel, hfuel with
    | fuel + 1, hfuel =>
      rw [readUntilFalseAux, if_pos (by simpa [canRead] using hp)]
      rw [hget]
      rw [if_neg (by simp [hbs]), if_neg (by simp [hsp]),
        if_neg (by simp [hsp]), if_pos hhex]
      have hdrop' : src.drop (p + 1) = ds := by
        have := List.drop_eq_getElem_cons hp
        rw [hdrop] at this
        exact ((List.cons.injEq _ _ _ _ ▸ this).2).symm
      have := ih fuel src (p + 1) (buf.push c) (by omega) hdrop'
        (fun x hx => hmem x (by simp [hx]))
      rw [show (readCharacter ⟨src, p⟩).2 = (⟨src, p + 1⟩ : LexerStream) from rfl]
      rw [this]
      simp [String.push]
      omega

/-- C6: a numeric token beginning `0` then `x` scans hexadecimal digits,
parses them as an unsigned 64-bit integer and widens the value to the
NUMERIC token's float (exact for every value below 2^53, within which the
widening is lossless); hex text that does not parse is a fatal error naming
the offending substring.  In particular `tokenize("0xFF")` yields one
NUMERIC token of value 255. -/
theorem claim6_hex_numeric :
    (∀ (ds : List Char), ds ≠ [] → (∀ c ∈ ds, c ∈ hexDigitChars) →
      hexVal ds < 2 ^ 53 →
      ∀ (functions : List (String × ExpressionFunction))
        (tpt : String → Option Nat) (state : TokenKind),
      readToken functions tpt state ⟨'0' :: 'x' :: ds, 0⟩ =
        .token ⟨.NUMERIC, .num ((hexVal ds : Nat) : ℚ), String.mk ds, 0,
          2 + ds.length⟩ ⟨'0' :: 'x' :: ds, 2 + ds.length⟩) ∧
    ParseTokens [] noTime "0xFF" = .ok [⟨.NUMERIC, .num 255, "FF", 0, 4⟩] ∧
    ParseTokens [] noTime "0xGG" =
      .error "Unable to parse hex value '' to uint64\n" ∧
    ParseTokens [] noTime "0x10000000000000000" =
      .error "Unable to parse hex value '10000000000000000' to uint64\n" := by
  refine ⟨?_, by decide, by decide, by decide⟩
  intro ds hne hmem hlt functions tpt state
  have hpos : 0 < ds.length := List.length_pos.mpr hne
  have e1 : isSpace '0' = false := by decide
  have e2 : isNumeric '0' = true := by decide
  simp only [readToken, readTokenAux, readCharacter, canRead, List.length_cons,
    List.getD_cons_zero, List.getD_cons_succ, e1, e2, Bool.false_eq_true,
    if_false, if_true, Bool.and_true, decide_eq_true_eq]
  rw [if_pos (by omega), if_pos (by simp), if_pos (by simp [hpos])]
  rw [readUntilFalse]
  rw [readUntilFalseAux_hex ds _ _ _ _ (by simp only [List.length_cons]; omega)
    (by simp) hmem]
  have hall : ds.all isHexDigit = true := by
    rw [List.all_eq_true]
    intro c hc
    exact (hexChar_facts c (hmem c hc)).1
  have hcond : (String.mk ds).toList ≠ [] ∧
      (String.mk ds).toList.all isHexDigit = true ∧
      hexVal (String.mk ds).toList < 2 ^ 64 := by
    refine ⟨by simpa using hne, by simpa using hall, ?_⟩
    have h64 : hexVal ds < 2 ^ 64 := lt_trans hlt (by norm_num)
    simpa using h64
  have hparse : parseUintHex (String.mk ([] ++ ds)) = some (hexVal ds) := by
    simp only [List.nil_append, parseUintHex, if_pos hcond]
    rfl
  rw [hparse]
  simp

/-- C6 witness: the hex path of `readToken` at the digits `FF`. -/
theorem claim6_witness :
    readToken [] noTime .UNKNOWN ⟨['0', 'x', 'F', 'F'], 0⟩ =
      .token ⟨.NUMERIC, .num ((hexVal ['F', 'F'] : Nat) : ℚ),
        String.mk ['F', 'F'], 0, 2 + (['F', 'F'] : List Char).length⟩
        ⟨['0', 'x', 'F', 'F'], 2 + (['F', 'F'] : List Char).length⟩ :=
  claim6_hex_numeric.1 ['F', 'F'] (by decide) (by decide) (by decide) []
    noTime .UNKNOWN

/-- Reading a token from a stream whose remaining characters are all
whitespace consumes them and reports that no further token exists. -/
theorem readTokenAux_allSpace (functions : List (String × ExpressionFunction))
    (tpt : String → Option Nat) :
    ∀ (fuel : Nat) (state : TokenKind) (s : LexerStream),
      s.source.length - s.position < fuel →
      (s.source.drop s.position).all isSpace = true →
      ∃ s', readTokenAux functions tpt fuel state s = .notFound s' := by
  intro fuel
  induction fuel with
  | zero => intro state s h _; omega
  | succ fuel ih =>
    intro state s hfuel hsp
    by_cases hc : canRead s
    · have hlt : s.position < s.source.length := by
        simpa [canRead] using hc
      have hdrop : s.source.drop s.position =
          s.source[s.position] :: s.source.drop (s.position + 1) :=
        List.drop_eq_getElem_cons hlt
      rw [hdrop, List.all_cons, Bool.and_eq_true] at hsp
      have hspc : isSpace ((readCharacter s).1) = true := by
        simpa [readCharacter, List.getD, List.get?_eq_getElem?,
          List.getElem?_eq_getElem hlt] using hsp.1
      rw [readTokenAux, if_pos hc, if_pos hspc]
      exact ih state ⟨s.source, s.position + 1⟩ (by simp; omega)
        (by simpa using hsp.2)
    · refine ⟨s, ?_⟩
      rw [readTokenAux, if_neg hc]

/-- C7: tokenizing the empty string returns an empty token sequence and no
error, and so does tokenizing input that is only whitespace: end of input
is never an error. -/
theorem claim7_empty_whitespace :
    (∀ (functions : List (String × ExpressionFunction))
      (tpt : String → Option Nat), ParseTokens functions tpt "" = .ok []) ∧
    (∀ (functions : List (String × ExpressionFunction))
      (tpt : String → Option Nat) (s : String), s.toList.all isSpace = true →
      ParseTokens functions tpt s = .ok []) := by
  constructor
  · intro functions tpt; rfl
  · intro functions tpt s hsp
    obtain ⟨s', hnf⟩ := readTokenAux_allSpace functions tpt
      (s.toList.length + 1) .UNKNOWN ⟨s.toList, 0⟩
      (show s.toList.length - 0 < s.toList.length + 1 by omega)
      (by simpa using hsp)
    have hscan : scanTokens functions tpt s = .ok [] := by
      rw [scanTokens, scanTokensAux]
      by_cases hc : canRead (⟨s.toList, 0⟩ : LexerStream)
      · rw [if_pos hc, readToken]
        simp only [hnf]
      · rw [if_neg hc]
    rw [ParseTokens, hscan]
    rfl

/-- C7 witness: tokenizing a space-and-tab string yields no tokens. -/
theorem claim7_witness : ParseTokens [] noTime " \t " = .ok [] :=
  claim7_empty_whitespace.2 [] noTime " \t " (by decide)

/-- C8: a LOGICALOP node renders without parentheses at depth 0 and always
wrapped in parentheses at any depth above 0, its two children rendered at
the next depth with the indentation string of two spaces per depth
level. -/
theorem claim8_logicalop_parentheses :
    ∀ (tok : RToken) (a b : ASTNode) (rest : List ASTNode) (d : Nat)
      (sa sb : String),
      tok.Kind = .LOGICALOP →
      generate a (d + 1) = some sa → generate b (d + 1) = some sb →
      generate (.mk tok (a :: b :: rest)) d =
        some (if d = 0 then sa ++ "\n" ++ tok.Content ++ "\n" ++ sb ++ " "
              else "(\n" ++ indentString d ++
                (sa ++ "\n" ++ indentString d ++ tok.Content ++ "\n" ++
                 indentString d ++ sb ++ " " ++ indentString d) ++
                "\n" ++ indentString d ++ ")") := by
  intro tok a b rest d sa sb hk ha hb
  obtain ⟨k, content, value⟩ := tok
  have hk' : k = .LOGICALOP := hk
  subst hk'
  simp only [generate, ha, hb]
  by_cases hd : d = 0
  · subst hd
    have h0 : indentString 0 = "" := rfl
    simp [h0]
  · rw [if_pos (show d > 0 by omega), if_neg hd]

/-- C8 witness: one logical node rendered at depth 1 (parenthesized) and at
depth 0 (bare). -/
theorem claim8_witness :
    generate (.mk ⟨.LOGICALOP, "&&", ""⟩
      [.mk ⟨.VARIABLE, "", "x"⟩ [], .mk ⟨.VARIABLE, "", "y"⟩ []]) 1 =
      some "(\n  x\n  &&\n  y   \n  )" ∧
    generate (.mk ⟨.LOGICALOP, "&&", ""⟩
      [.mk ⟨.VARIABLE, "", "x"⟩ [], .mk ⟨.VARIABLE, "", "y"⟩ []]) 0 =
      some "x\n&&\ny " := by
  constructor
  · rw [claim8_logicalop_parentheses ⟨.LOGICALOP, "&&", ""⟩ _ _ [] 1 "x" "y"
      rfl (by decide) (by decide)]
    decide
  · rw [claim8_logicalop_parentheses ⟨.LOGICALOP, "&&", ""⟩ _ _ [] 0 "x" "y"
      rfl (by decide) (by decide)]
    decide

/-- A list the arity invariant bounds below by two splits into two heads. -/
theorem exists_two_of_le_length {l : List ASTNode} (h : 2 ≤ l.length) :
    ∃ c0 c1 rest, l = c0 :: c1 :: rest := by
  match l, h with
  | c0 :: c1 :: rest, _ => exact ⟨c0, c1, rest, rfl⟩

/-- A list the arity invariant bounds below by one splits into a head. -/
theorem exists_one_of_le_length {l : List ASTNode} (h : 1 ≤ l.length) :
    ∃ c0 rest, l = c0 :: rest := by
  match l, h with
  | c0 :: rest, _ => exact ⟨c0, rest, rfl⟩

mutual
/-- The renderer succeeds on every tree satisfying the arity invariant. -/
theorem generate_total : ∀ (t : ASTNode), wellFormed t = true → ∀ (d : Nat),
    (generate t d).isSome = true
  | .mk tok children => by
    intro hwf d
    rw [wellFormed, Bool.and_eq_true] at hwf
    obtain ⟨harity, hall⟩ := hwf
    have htotal := fun d => generateList_total children hall d
    cases hk : tok.Kind
    case LOGICALOP =>
      rw [hk, arityOk, decide_eq_true_eq] at harity
      obtain ⟨c0, c1, rest, rfl⟩ := exists_two_of_le_length harity
      rw [allWellFormed, Bool.and_eq_true] at hall
      obtain ⟨h0, hall1⟩ := hall
      rw [allWellFormed, Bool.and_eq_true] at hall1
      obtain ⟨h1, _⟩ := hall1
      obtain ⟨s0, e0⟩ := Option.isSome_iff_exists.mp (generate_total c0 h0 (d + 1))
      obtain ⟨s1, e1⟩ := Option.isSome_iff_exists.mp (generate_total c1 h1 (d + 1))
      simp only [generate, hk, e0, e1]
      by_cases hd : d > 0 <;> simp [hd]
    case COMPARATOR =>
      rw [hk, arityOk, decide_eq_true_eq] at harity
      obtain ⟨c0, c1, rest, rfl⟩ := exists_two_of_le_length harity
      rw [allWellFormed, Bool.and_eq_true] at hall
      obtain ⟨h0, hall1⟩ := hall
      rw [allWellFormed, Bool.and_eq_true] at hall1
      obtain ⟨h1, _⟩ := hall1
      obtain ⟨s0, e0⟩ := Option.isSome_iff_exists.mp (generate_total c0 h0 (d + 1))
      obtain ⟨s1, e1⟩ := Option.isSome_iff_exists.mp (generate_total c1 h1 (d + 1))
      simp [generate, hk, e0, e1]
    case PREFIX =>
      rw [hk, arityOk, decide_eq_true_eq] at harity
      obtain ⟨c0, rest, rfl⟩ := exists_one_of_le_length harity
      rw [allWellFormed, Bool.and_eq_true] at hall
      obtain ⟨h0, _⟩ := hall
      obtain ⟨s0, e0⟩ := Option.isSome_iff_exists.mp (generate_total c0 h0 (d + 1))
      simp [generate, hk, e0]
    case FUNCTION =>
      obtain ⟨params, ep⟩ := Option.isSome_iff_exists.mp (htotal 0)
      simp [generate, hk, ep]
    case ARRAY =>
      obtain ⟨elements, ep⟩ := Option.isSome_iff_exists.mp (htotal (d + 1))
      simp [generate, hk, ep]
    case UNKNOWN => simp [generate, hk]
    case NUMERIC => simp [generate, hk]
    case STRING => simp [generate, hk]
    case TIME => simp [generate, hk]
    case BOOLEAN => simp [generate, hk]
    case VARIABLE => simp [generate, hk]
    case ACCESSOR => simp [generate, hk]
    case SEPARATOR => simp [generate, hk]
    case MODIFIER => simp [generate, hk]
    case TERNARY => simp [generate, hk]
    case CLAUSE => simp [generate, hk]
    case CLAUSE_CLOSE => simp [generate, hk]
/-- The renderer succeeds on every list of trees satisfying the arity
invariant. -/
theorem generateList_total : ∀ (l : List ASTNode), allWellFormed l = true →
    ∀ (d : Nat), (generateList l d).isSome = true
  | [] => by intro _ d; rw [generateList]; rfl
  | c :: cs => by
    intro hwf d
    rw [allWellFormed, Bool.and_eq_true] at hwf
    obtain ⟨hc, hcs⟩ := hwf
    obtain ⟨s, e0⟩ := Option.isSome_iff_exists.mp (generate_total c hc d)
    obtain ⟨rest, e1⟩ := Option.isSome_iff_exists.mp (generateList_total cs hcs d)
    rw [generateList, e0, e1]
    rfl
end

/-- C9: on every tree satisfying the arity invariant (two children for
LOGICALOP and COMPARATOR, one for PREFIX) the renderer terminates with a
string and never fails; a node whose kind is outside the rendered set
contributes empty text; and a FUNCTION node with zero children renders as
its name followed by a parenthesized pair of spaces. -/
theorem claim9_renderer_safety :
    (∀ (t : ASTNode), wellFormed t = true → ∀ (d : Nat),
      (generate t d).isSome = true) ∧
    (∀ (tok : RToken) (children : List ASTNode) (d : Nat),
      tok.Kind ∉ renderedKinds → generate (.mk tok children) d = some "") ∧
    (∀ (tok : RToken) (d : Nat), tok.Kind = .FUNCTION →
      generate (.mk tok []) d = some (tok.Content ++ "(  )")) := by
  refine ⟨generate_total, ?_, ?_⟩
  · intro tok children d h
    obtain ⟨k, content, value⟩ := tok
    have hk : ({ Kind := k, Content := content, Value := value } : RToken).Kind
        = k := rfl
    cases k
    case UNKNOWN => simp [generate]
    case NUMERIC => exact absurd (by decide) (hk ▸ h)
    case STRING => exact absurd (by decide) (hk ▸ h)
    case TIME => simp [generate]
    case BOOLEAN => simp [generate]
    case VARIABLE => exact absurd (by decide) (hk ▸ h)
    case ACCESSOR => simp [generate]
    case FUNCTION => exact absurd (by decide) (hk ▸ h)
    case SEPARATOR => simp [generate]
    case COMPARATOR => exact absurd (by decide) (hk ▸ h)
    case LOGICALOP => exact absurd (by decide) (hk ▸ h)
    case PREFIX => exact absurd (by decide) (hk ▸ h)
    case MODIFIER => simp [generate]
    case TERNARY => simp [generate]
    case CLAUSE => simp [generate]
    case CLAUSE_CLOSE => simp [generate]
    case ARRAY => exact absurd (by decide) (hk ▸ h)
  · intro tok d hk
    obtain ⟨k, content, value⟩ := tok
    have hk' : k = .FUNCTION := hk
    subst hk'
    simp only [generate, generateList]
    have hi : String.intercalate ", " ([] : List String) = "" := rfl
    rw [hi]
    rw [String.append_empty, String.append_assoc]
    rfl

/-- C9 witness: a well-formed comparator tree renders, a SEPARATOR node
renders as empty text, and an argument-less FUNCTION node renders with two
spaces between its parentheses. -/
theorem claim9_witness :
    (generate (.mk ⟨.COMPARATOR, "==", ""⟩
      [.mk ⟨.VARIABLE, "", "x"⟩ [], .mk ⟨.NUMERIC, "", "1"⟩ []]) 0).isSome
      = true ∧
    generate (.mk ⟨.SEPARATOR, ",", ","⟩ [.mk ⟨.VARIABLE, "", "x"⟩ []]) 2 =
      some "" ∧
    generate (.mk ⟨.FUNCTION, "f", ""⟩ []) 0 = some ("f" ++ "(  )") :=
  ⟨claim9_renderer_safety.1 _ (by decide) 0,
   claim9_renderer_safety.2.1 ⟨.SEPARATOR, ",", ","⟩
     [.mk ⟨.VARIABLE, "", "x"⟩ []] 2 (by decide),
   claim9_renderer_safety.2.2 ⟨.FUNCTION, "f", ""⟩ 0 rfl⟩

/-- C10 (implicit): the numeric dispatch of the tokenizer fires on a
leading period as well as a leading digit (`isNumeric` accepts the period
although `isDigit` does not), so `tokenize(".5")` yields one NUMERIC token
of value one half and `tokenize(".")` fails with the malformed-numeric
error. -/
theorem claim10_leading_period :
    isNumeric '.' = true ∧ isDigit '.' = false ∧
    ParseTokens [] noTime ".5" =
      .ok [⟨.NUMERIC, .num (mkRat 1 2), ".5", 0, 2⟩] ∧
    ParseTokens [] noTime "." =
      .error "Unable to parse numeric value '.' to float64\n" :=
  ⟨by decide, by decide, by decide, by decide⟩

end GovaluateTool
